import Mathlib

/-!
Formal model of the aggregation and projection pipeline of
`f1_visualizer.py` (F1 Data Visualizer dashboard).

The pandas dataframe is modelled as a list of rows; every dataframe
operation used by the script (filtering, groupby-sum with sorted group
keys, pivot-table counting, value sorting, nlargest, head/take) is
translated into an executable list function.  Numeric columns are exact
rationals; the nullable `position` column is an `Option`.
-/

namespace F1Viz

/-- One row of the loaded dataframe: columns `year`, `driver`,
`constructor`, `position` (nullable after the `to_numeric` coercion)
and `points`. -/
structure Row where
  year : Int
  driver : String
  constructor : String
  position : Option ℚ
  points : ℚ
deriving DecidableEq

/-- A dataframe is a list of rows. -/
abbrev DF := List Row

/-- Character comparison by code point, as Python compares characters. -/
def charLt (a b : Char) : Bool := decide (a.toNat < b.toNat)

/-- Lexicographic order on character lists: the order pandas uses when it
sorts string group keys. -/
def lexLe : List Char → List Char → Bool
  | [], _ => true
  | _ :: _, [] => false
  | a :: as, b :: bs => if a = b then lexLe as bs else charLt a b

/-- Lexicographic order on strings (by code points, as in Python). -/
def strLe (a b : String) : Bool := lexLe a.data b.data

/-- Lexicographic order on (driver, year) / (constructor, year) pairs,
the key order of a two-column pandas groupby. -/
def pairLe (a b : String × Int) : Bool :=
  if a.1 = b.1 then decide (a.2 ≤ b.2) else strLe a.1 b.1

/-- Distinct group keys in ascending order: pandas `groupby` sorts its
group keys (default `sort=True`). -/
def groupKeys {κ : Type} [DecidableEq κ] (le : κ → κ → Bool) (ks : List κ) : List κ :=
  ks.dedup.insertionSort (fun a b => le a b)

/-- `df.groupby(key)['points'].sum()`: a series of (group key, summed
points), keys distinct and ascending. -/
def groupSumBy {κ : Type} [DecidableEq κ] (key : Row → κ) (le : κ → κ → Bool)
    (df : DF) : List (κ × ℚ) :=
  (groupKeys le (df.map key)).map
    (fun k => (k, ((df.filter (fun r => key r = k)).map Row.points).sum))

/-- Stable descending sort of a series by value: `sort_values(ascending=False)`
and the ordering inside `nlargest` (ties keep first occurrence). -/
def sortDescQ {κ : Type} (s : List (κ × ℚ)) : List (κ × ℚ) :=
  s.insertionSort (fun a b => b.2 ≤ a.2)

/-- `Series.nlargest(n)`: the n largest entries, in descending order of
value, earlier entries first on ties (pandas `keep='first'`). -/
def nlargest {κ : Type} (n : Nat) (s : List (κ × ℚ)) : List (κ × ℚ) :=
  (sortDescQ s).take n

/-- Line 59: `top_drivers = df.groupby('driver')['points'].sum().nlargest(6).index`. -/
def top_drivers (df : DF) : List String :=
  (nlargest 6 (groupSumBy Row.driver strLe df)).map Prod.fst

/-- Line 60: `driver_trend = df[df['driver'].isin(top_drivers)]
.groupby(['driver','year'])['points'].sum().reset_index()`. -/
def driver_trend (df : DF) : List ((String × Int) × ℚ) :=
  groupSumBy (fun r => (r.driver, r.year)) pairLe
    (df.filter (fun r => r.driver ∈ top_drivers df))

/-- Line 63: `cons_trend = df.groupby(['constructor','year'])['points'].sum().reset_index()`. -/
def cons_trend_all (df : DF) : List ((String × Int) × ℚ) :=
  groupSumBy (fun r => (r.constructor, r.year)) pairLe df

/-- Line 64: `top_constructors = cons_trend.groupby('constructor')['points'].sum().nlargest(6).index`. -/
def top_constructors (df : DF) : List String :=
  (nlargest 6 ((groupKeys strLe ((cons_trend_all df).map (fun e => e.1.1))).map
    (fun c => (c, (((cons_trend_all df).filter (fun e => e.1.1 = c)).map Prod.snd).sum)))).map
    Prod.fst

/-- Line 65: `cons_trend = cons_trend[cons_trend['constructor'].isin(top_constructors)]`. -/
def cons_trend (df : DF) : List ((String × Int) × ℚ) :=
  (cons_trend_all df).filter (fun e => e.1.1 ∈ top_constructors df)

/-- Line 68: `podium = df[df['position'].isin([1, 2, 3])]`.  A missing
(`None`) position is never a member, exactly as NaN fails `isin`. -/
def podium (df : DF) : DF :=
  df.filter (fun r => r.position ∈ [some (1 : ℚ), some 2, some 3])

/-- One row of the podium pivot table after the columns are renamed to
1st / 2nd / 3rd.  The cell values are counts, hence naturals. -/
structure PodiumRow where
  driver : String
  first : Nat
  second : Nat
  third : Nat
deriving DecidableEq

/-- Count of rows of `p` for a given driver with a given numeric
finishing position (one cell of the pivot table, `aggfunc='size'`). -/
def posCount (p : DF) (d : String) (v : ℚ) : Nat :=
  (p.filter (fun r => r.driver = d ∧ r.position = some v)).length

/-- Lines 69-75: `podium.pivot_table(index='driver', columns='position',
aggfunc='size', fill_value=0).astype(int)` followed by
`podium_count.columns = ['1st', '2nd', '3rd']`.

The pivot's columns are the distinct position values actually present in
`podium`, sorted ascending; the rename to the three labels raises a
length-mismatch `ValueError` unless exactly three distinct positions
occur, which is the `none` branch here.  When all of 1, 2, 3 occur the
sorted columns are `[1, 2, 3]` and the relabelling matches them up as in
this record type.  Index: distinct drivers, ascending. -/
def podiumPivot (df : DF) : Option (List PodiumRow) :=
  if (((podium df).map Row.position).dedup).length = 3 then
    some ((groupKeys strLe ((podium df).map Row.driver)).map
      (fun d => ⟨d, posCount (podium df) d 1, posCount (podium df) d 2,
        posCount (podium df) d 3⟩))
  else none

/-- The transient `Total` column of line 76: row sum of the three counts. -/
def rowTotal (pr : PodiumRow) : Nat := pr.first + pr.second + pr.third

/-- Lines 76-77: add the `Total` column, sort by it descending, keep the
top 10 rows, drop the `Total` column again.  The final table never
carries the total, so it only appears here as the sort key. -/
def podium_count (df : DF) : Option (List PodiumRow) :=
  (podiumPivot df).map
    (fun t => (t.insertionSort (fun a b => rowTotal b ≤ rowTotal a)).take 10)

/-- Line 138: `recent_years = df[df['year'] >= 2020]`.  Note the window
is the fixed threshold 2020, not "the most recent five seasons present". -/
def recent_years (df : DF) : DF := df.filter (fun r => 2020 ≤ r.year)

/-- Lines 141-146: per-driver race count and point total over the recent
window, their quotient, `dropna` (a no-op on exact rationals) and
`sort_values(ascending=False)`.  Both groupbys produce the same driver
index, so the series division aligns key by key. -/
def driver_avg (df : DF) : List (String × ℚ) :=
  sortDescQ ((groupKeys strLe ((recent_years df).map Row.driver)).map
    (fun d => (d, (((recent_years df).filter (fun r => r.driver = d)).map Row.points).sum
      / (((recent_years df).filter (fun r => r.driver = d)).length : ℚ))))

/-- Round half to even, the rounding mode of numpy (hence of pandas
`Series.round`). -/
def roundHalfEven (q : ℚ) : ℤ :=
  if q - ⌊q⌋ < 1 / 2 then ⌊q⌋
  else if 1 / 2 < q - ⌊q⌋ then ⌊q⌋ + 1
  else if ⌊q⌋ % 2 = 0 then ⌊q⌋ else ⌊q⌋ + 1

/-- `Series.round(1)`: round to one decimal place. -/
def round1 (q : ℚ) : ℚ := (roundHalfEven (q * 10) : ℚ) / 10

/-- Line 149: `projection_2025 = (driver_avg * 20).round(1).nlargest(10)`. -/
def projection_2025 (df : DF) : List (String × ℚ) :=
  nlargest 10 ((driver_avg df).map (fun p => (p.1, round1 (p.2 * 20))))

/-- Line 152: `top3 = projection_2025.head(3)`. -/
def top3 (df : DF) : List (String × ℚ) := (projection_2025 df).take 3

/-- Python `int()` truncates toward zero (line 161, `int(pts)`). -/
def ratTrunc (q : ℚ) : ℤ := if 0 ≤ q then ⌊q⌋ else -⌊-q⌋

/-- The values of the headline loop of lines 159-161: the top-3 series
with each projected value truncated to an integer. -/
def top3_display (df : DF) : List (String × ℤ) :=
  (top3 df).map (fun p => (p.1, ratTrunc p.2))

/-- A raw CSV cell of the `position` column before type coercion. -/
inductive Cell where
  | num (q : ℚ)
  | text (s : String)
  | blank
deriving DecidableEq

/-- Line 44: `pd.to_numeric(df['position'], errors='coerce')` on one
cell: numbers pass through, unparseable text and empty cells become
missing values instead of raising. -/
def to_numeric_coerce : Cell → Option ℚ
  | .num q => some q
  | .text _ => none
  | .blank => none

/-- One raw CSV row as `read_csv` delivers it, before position coercion. -/
structure RawRow where
  year : Int
  driver : String
  constructor : String
  position : Cell
  points : ℚ
deriving DecidableEq

/-- The per-row effect of the load block: coerce the position cell. -/
def loadRow (r : RawRow) : Row :=
  ⟨r.year, r.driver, r.constructor, to_numeric_coerce r.position, r.points⟩

/-- The possible shapes of the input as the load block sees them: the
file may be absent, `read_csv` may raise, or a table is parsed which may
or may not carry the `position` and `year` columns touched inside the
`try` block (lines 43-45). -/
inductive LoadInput where
  | missingFile
  | unreadable
  | table (hasPosition : Bool) (hasYear : Bool) (rows : List RawRow)
deriving DecidableEq

/-- How the script leaves the load section: `st.stop()` after the
missing-file message (lines 37-40), `st.stop()` after the generic load
error message (lines 46-48), or fall-through with the loaded dataframe. -/
inductive Outcome where
  | haltMissingFile
  | haltLoadError
  | loaded (df : DF)
deriving DecidableEq

/-- Lines 37-48: the existence check runs before any loading; inside the
`try`, a raise of `read_csv`, a missing `position` column (line 44) or a
missing `year` column (line 45) all reach the generic `except` and halt. -/
def runLoad : LoadInput → Outcome
  | .missingFile => .haltMissingFile
  | .unreadable => .haltLoadError
  | .table hasPos hasYear rows =>
      if hasPos ∧ hasYear then .loaded (rows.map loadRow) else .haltLoadError

/-- The derived tables the dashboard renders. -/
structure Views where
  top_drivers : List String
  driver_trend : List ((String × Int) × ℚ)
  cons_trend : List ((String × Int) × ℚ)
  podium_count : Option (List PodiumRow)
  driver_avg : List (String × ℚ)
  projection_2025 : List (String × ℚ)
  top3 : List (String × ℚ)

/-- The statement sequence of lines 58-77 and 138-152 as a state
transformer on the dataframe variable: each derived table is computed
from the dataframe in scope, and the pair returns the dataframe the
sequence leaves behind.  No statement of the source rebinds `df`. -/
def runPrepare (df : DF) : Views × DF :=
  let td := top_drivers df
  let dt := driver_trend df
  let ct := cons_trend df
  let pc := podium_count df
  let da := driver_avg df
  let pj := projection_2025 df
  let t3 := top3 df
  (⟨td, dt, ct, pc, da, pj, t3⟩, df)

/-- Modelled from the spec (claim C4 reads the recent window as data
dependent): the most recent 5 seasons present in the dataset. -/
def recentSeasonsSpec (df : DF) : List Int :=
  ((df.map Row.year).dedup.insertionSort (fun a b => decide (b ≤ a))).take 5

/-- Modelled from the spec: restrict to the most recent 5 seasons
present in the dataset. -/
def recent_years_spec (df : DF) : DF :=
  df.filter (fun r => r.year ∈ recentSeasonsSpec df)

/-- Modelled from the spec: the recent-form average over the
data-dependent window of `recent_years_spec`, otherwise exactly as the
code computes it. -/
def driver_avg_spec (df : DF) : List (String × ℚ) :=
  sortDescQ ((groupKeys strLe ((recent_years_spec df).map Row.driver)).map
    (fun d => (d, (((recent_years_spec df).filter (fun r => r.driver = d)).map Row.points).sum
      / (((recent_years_spec df).filter (fun r => r.driver = d)).length : ℚ))))

/-- Modelled from the spec (claim C5): the podium table as the spec
describes it: filter, count per (driver, position) with absent
combinations filled by 0 into the fixed columns 1st/2nd/3rd, rank by the
row total, keep the 10 largest, drop the total.  Unlike the code it is
total: it never fails when a position value is absent from the data. -/
def podium_count_spec (df : DF) : List PodiumRow :=
  (((groupKeys strLe ((podium df).map Row.driver)).map
      (fun d => ⟨d, posCount (podium df) d 1, posCount (podium df) d 2,
        posCount (podium df) d 3⟩))
    |>.insertionSort (fun a b => rowTotal b ≤ rowTotal a)).take 10

/-- Concrete dataset of the spec's worked projection example: DriverA
with 25 points in 2023 and 18 points in 2024. -/
def exampleA : DF :=
  [⟨2023, "DriverA", "TeamA", none, 25⟩, ⟨2024, "DriverA", "TeamA", none, 18⟩]

/-- Concrete dataset refuting the data-dependent reading of the recent
window: a single entry in season 2019. -/
def exWindow : DF := [⟨2019, "A", "T", none, 10⟩]

/-- Concrete dataset on which the podium pivot relabelling fails: one
podium row, so only one distinct position value occurs. -/
def exOnePos : DF := [⟨2020, "A", "T", some 1, 25⟩]

/-- Concrete dataset with all three podium positions present. -/
def exFull : DF :=
  [⟨2020, "A", "T", some 1, 25⟩, ⟨2020, "B", "U", some 2, 18⟩,
   ⟨2021, "A", "T", some 3, 15⟩, ⟨2021, "B", "U", none, 0⟩]

/-- The first row of the podium table of `exFull`, used as a concrete
instance below. -/
def exRowA : PodiumRow := ⟨"A", 1, 0, 1⟩

/-- The full podium table of `exFull`, used as a concrete instance
below. -/
def exTable : List PodiumRow := [⟨"A", 1, 0, 1⟩, ⟨"B", 0, 1, 0⟩]

/-- DriverA's entry of the recent-form average on `exampleA`:
(25 + 18) / 2 = 21.5. -/
def exAvgP : String × ℚ := ("DriverA", 43 / 2)

/-- DriverA's entry of the 2025 projection on `exampleA`: 21.5 × 20 =
430.0. -/
def exProjP : String × ℚ := ("DriverA", 430)

/-- A raw row whose position cell is unparseable text. -/
def exRaw : RawRow := ⟨2020, "A", "T", Cell.text ("DNF"), 0⟩

section
attribute [local semireducible] Rat.add Rat.mul Rat.inv Rat.sub

theorem mem_groupKeys {κ : Type} [DecidableEq κ] (le : κ → κ → Bool) (ks : List κ) (k : κ) :
    k ∈ groupKeys le ks ↔ k ∈ ks := by
  unfold groupKeys
  rw [List.mem_insertionSort, List.mem_dedup]

theorem nodup_groupKeys {κ : Type} [DecidableEq κ] (le : κ → κ → Bool) (ks : List κ) :
    (groupKeys le ks).Nodup :=
  (List.perm_insertionSort _ _).nodup_iff.mpr (List.nodup_dedup ks)

theorem sortDescQ_perm {κ : Type} (s : List (κ × ℚ)) : List.Perm (sortDescQ s) s :=
  List.perm_insertionSort _ s

theorem sortDescQ_sorted {κ : Type} (s : List (κ × ℚ)) :
    List.Sorted (fun a b : κ × ℚ => b.2 ≤ a.2) (sortDescQ s) := by
  haveI : IsTotal (κ × ℚ) (fun a b => b.2 ≤ a.2) := ⟨fun a b => le_total b.2 a.2⟩
  haveI : IsTrans (κ × ℚ) (fun a b => b.2 ≤ a.2) := ⟨fun _ _ _ h1 h2 => le_trans h2 h1⟩
  exact List.sorted_insertionSort _ s

theorem mem_of_mem_nlargest {κ : Type} {n : ℕ} {s : List (κ × ℚ)} {e : κ × ℚ}
    (h : e ∈ nlargest n s) : e ∈ s :=
  (sortDescQ_perm s).mem_iff.mp (List.mem_of_mem_take h)

theorem mem_groupSumBy {κ : Type} [DecidableEq κ] {key : Row → κ} {le : κ → κ → Bool}
    {df : DF} {e : κ × ℚ} :
    e ∈ groupSumBy key le df ↔ e.1 ∈ df.map key
      ∧ e.2 = ((df.filter (fun r => key r = e.1)).map Row.points).sum := by
  unfold groupSumBy
  rw [List.mem_map]
  constructor
  · rintro ⟨k, hk, rfl⟩
    exact ⟨(mem_groupKeys le _ k).mp hk, rfl⟩
  · rintro ⟨h1, h2⟩
    exact ⟨e.1, (mem_groupKeys le _ e.1).mpr h1, Prod.ext rfl h2.symm⟩

theorem sum_filter_key_cons {α κ : Type} [DecidableEq κ] (f : α → κ) (v : α → ℚ)
    (rows : List α) (k : κ) (ks : List κ) (hk : k ∉ ks) :
    ((rows.filter (fun r => f r ∈ k :: ks)).map v).sum
      = ((rows.filter (fun r => f r = k)).map v).sum
        + ((rows.filter (fun r => f r ∈ ks)).map v).sum := by
  induction rows with
  | nil => simp
  | cons a l ih =>
    rw [List.filter_cons, List.filter_cons, List.filter_cons]
    by_cases h1 : f a = k
    · have h2 : f a ∉ ks := by rw [h1]; exact hk
      rw [if_pos (by simp [h1]), if_pos (by simp [h1]), if_neg (by simp [h2])]
      rw [List.map_cons, List.sum_cons, List.map_cons, List.sum_cons, ih]
      ring
    · by_cases h2 : f a ∈ ks
      · rw [if_pos (by simp [h2]), if_neg (by simp [h1]), if_pos (by simp [h2])]
        rw [List.map_cons, List.sum_cons, List.map_cons, List.sum_cons, ih]
        ring
      · rw [if_neg (by simp [h1, h2]), if_neg (by simp [h1]), if_neg (by simp [h2])]
        exact ih

theorem sum_over_groups {α κ : Type} [DecidableEq κ] (f : α → κ) (v : α → ℚ)
    (rows : List α) :
    ∀ keys : List κ, keys.Nodup →
      (keys.map (fun k => ((rows.filter (fun r => f r = k)).map v).sum)).sum
        = ((rows.filter (fun r => f r ∈ keys)).map v).sum := by
  intro keys
  induction keys with
  | nil => intro _; simp
  | cons k ks ih =>
    intro hnd
    rw [List.map_cons, List.sum_cons, ih (List.nodup_cons.mp hnd).2,
      sum_filter_key_cons f v rows k ks (List.nodup_cons.mp hnd).1]

theorem sum_over_groups_full {α κ : Type} [DecidableEq κ] (f : α → κ) (v : α → ℚ)
    (rows : List α) (keys : List κ) (hnd : keys.Nodup) (hcov : ∀ r ∈ rows, f r ∈ keys) :
    (keys.map (fun k => ((rows.filter (fun r => f r = k)).map v).sum)).sum
      = (rows.map v).sum := by
  rw [sum_over_groups f v rows keys hnd]
  have hfe : rows.filter (fun r => f r ∈ keys) = rows :=
    List.filter_eq_self.mpr (fun a ha => decide_eq_true (hcov a ha))
  rw [hfe]

theorem sum_over_pair_groups (d : String) (rows : List Row)
    (keysD : List (String × Int)) (hnd : keysD.Nodup)
    (hfst : ∀ p ∈ keysD, p.1 = d)
    (hcov : ∀ r ∈ rows, (d, r.year) ∈ keysD) :
    (keysD.map (fun p => ((rows.filter (fun r => r.year = p.2)).map Row.points).sum)).sum
      = (rows.map Row.points).sum := by
  have h1 : keysD.map (fun p => ((rows.filter (fun r => r.year = p.2)).map Row.points).sum)
      = (keysD.map Prod.snd).map
          (fun y => ((rows.filter (fun r => r.year = y)).map Row.points).sum) := by
    rw [List.map_map]
    rfl
  rw [h1]
  apply sum_over_groups_full Row.year Row.points rows (keysD.map Prod.snd)
  · exact hnd.map_on (fun x hx y hy hxy => Prod.ext (by rw [hfst x hx, hfst y hy]) hxy)
  · intro r hr
    exact List.mem_map.mpr ⟨(d, r.year), hcov r hr, rfl⟩

theorem sum_snd_filter_trend (S : String × Int → ℚ) (d : String) :
    ∀ keys : List (String × Int),
      (((keys.map (fun k => (k, S k))).filter (fun e => e.1.1 = d)).map Prod.snd).sum
        = ((keys.filter (fun p => p.1 = d)).map S).sum
  | [] => rfl
  | k :: ks => by
    by_cases hq : k.1 = d
    · simp [List.filter_cons, hq, sum_snd_filter_trend S d ks]
    · simp [List.filter_cons, hq, sum_snd_filter_trend S d ks]

theorem fdf_filter_key (df : DF) (d : String) (hd : d ∈ top_drivers df) (p : String × Int)
    (hp : p.1 = d) :
    (df.filter (fun r => r.driver ∈ top_drivers df)).filter (fun r => (r.driver, r.year) = p)
      = (df.filter (fun r => r.driver = d)).filter (fun r => r.year = p.2) := by
  rw [List.filter_filter, List.filter_filter]
  apply List.filter_congr
  intro r _
  by_cases hr : r.driver = d
  · simp [Prod.ext_iff, hr, hp, hd]
  · simp [Prod.ext_iff, hp, hr]

theorem trend_sum_eq (df : DF) (d : String) (hd : d ∈ top_drivers df) :
    (((driver_trend df).filter (fun e => e.1.1 = d)).map Prod.snd).sum
      = ((df.filter (fun r => r.driver = d)).map Row.points).sum := by
  unfold driver_trend groupSumBy
  rw [sum_snd_filter_trend]
  have hmap : ((groupKeys pairLe ((df.filter (fun r => r.driver ∈ top_drivers df)).map
        (fun r => (r.driver, r.year)))).filter (fun p => p.1 = d)).map
        (fun k => (((df.filter (fun r => r.driver ∈ top_drivers df)).filter
          (fun r => (r.driver, r.year) = k)).map Row.points).sum)
      = ((groupKeys pairLe ((df.filter (fun r => r.driver ∈ top_drivers df)).map
        (fun r => (r.driver, r.year)))).filter (fun p => p.1 = d)).map
        (fun p => (((df.filter (fun r => r.driver = d)).filter
          (fun r => r.year = p.2)).map Row.points).sum) := by
    apply List.map_congr_left
    intro p hp
    have hp1 : p.1 = d := of_decide_eq_true (List.mem_filter.mp hp).2
    rw [fdf_filter_key df d hd p hp1]
  rw [hmap]
  apply sum_over_pair_groups
  · exact (nodup_groupKeys _ _).filter _
  · intro p hp
    exact of_decide_eq_true (List.mem_filter.mp hp).2
  · intro r hr
    have hrdf : r ∈ df := (List.mem_filter.mp hr).1
    have hrd : r.driver = d := of_decide_eq_true (List.mem_filter.mp hr).2
    have hrf : r ∈ df.filter (fun r => r.driver ∈ top_drivers df) := by
      refine List.mem_filter.mpr ⟨hrdf, decide_eq_true ?_⟩
      rw [hrd]; exact hd
    have hkey : (d, r.year) ∈ (df.filter (fun r => r.driver ∈ top_drivers df)).map
        (fun r => (r.driver, r.year)) :=
      List.mem_map.mpr ⟨r, hrf, by rw [hrd]⟩
    refine List.mem_filter.mpr ⟨(mem_groupKeys _ _ _).mpr hkey, ?_⟩
    exact decide_eq_true rfl

/-- C1: every driver selected into the top 6 by cumulative points has
per-season totals in the re-expanded trend table that sum exactly to the
cumulative total the top-6 selection used for that driver. -/
theorem claim_C1 : ∀ (df : DF) (d : String), d ∈ top_drivers df →
    ((((driver_trend df).filter (fun e => e.1.1 = d)).map Prod.snd).sum
      = ((df.filter (fun r => r.driver = d)).map Row.points).sum)
    ∧ (∀ v : ℚ, (d, v) ∈ nlargest 6 (groupSumBy Row.driver strLe df) →
        v = ((df.filter (fun r => r.driver = d)).map Row.points).sum) := by
  intro df d hd
  refine ⟨trend_sum_eq df d hd, ?_⟩
  intro v hv
  exact (mem_groupSumBy.mp (mem_of_mem_nlargest hv)).2

/-- C1 witness: on the worked example dataset the selected driver's
trend rows sum to the cumulative total used for selection. -/
theorem claim_C1_witness :
    (((driver_trend exampleA).filter (fun e => e.1.1 = "DriverA")).map Prod.snd).sum
      = ((exampleA.filter (fun r => r.driver = "DriverA")).map Row.points).sum :=
  (claim_C1 exampleA ("DriverA") (by decide)).1

theorem podium_filter_driver_pos (df : DF) (d : String) (v : ℚ)
    (hv : v = 1 ∨ v = 2 ∨ v = 3) :
    (podium df).filter (fun r => r.driver = d ∧ r.position = some v)
      = df.filter (fun r => r.driver = d ∧ r.position = some v) := by
  unfold podium
  rw [List.filter_filter]
  apply List.filter_congr
  intro r _
  by_cases h1 : r.driver = d ∧ r.position = some v
  · have hmem : r.position ∈ [some (1 : ℚ), some 2, some 3] := by
      rcases hv with h | h | h <;> simp [h1.2, h]
    simp [h1, hmem]
    exact hv
  · simp [h1]

theorem posCount_source (df : DF) (d : String) (v : ℚ) (hv : v = 1 ∨ v = 2 ∨ v = 3) :
    posCount (podium df) d v
      = (df.filter (fun r => r.driver = d ∧ r.position = some v)).length := by
  unfold posCount
  rw [podium_filter_driver_pos df d v hv]

theorem podium_tripartite (l : List Row) (d : String) :
    (l.filter (fun r => r.driver = d ∧ r.position = some (1 : ℚ))).length
      + (l.filter (fun r => r.driver = d ∧ r.position = some (2 : ℚ))).length
      + (l.filter (fun r => r.driver = d ∧ r.position = some (3 : ℚ))).length
      = (l.filter (fun r => r.driver = d
          ∧ r.position ∈ [some (1 : ℚ), some 2, some 3])).length := by
  induction l with
  | nil => rfl
  | cons a t ih =>
    rw [List.filter_cons, List.filter_cons, List.filter_cons, List.filter_cons]
    by_cases hd : a.driver = d
    · by_cases h1 : a.position = some (1 : ℚ)
      · rw [if_pos (by simp [hd, h1]), if_neg (by norm_num [h1]), if_neg (by norm_num [h1]),
          if_pos (by simp [hd, h1])]
        simp only [List.length_cons]
        omega
      · by_cases h2 : a.position = some (2 : ℚ)
        · rw [if_neg (by norm_num [h2]), if_pos (by simp [hd, h2]), if_neg (by norm_num [h2]),
            if_pos (by simp [hd, h2])]
          simp only [List.length_cons]
          omega
        · by_cases h3 : a.position = some (3 : ℚ)
          · rw [if_neg (by norm_num [h3]), if_neg (by norm_num [h3]),
              if_pos (by simp [hd, h3]), if_pos (by simp [hd, h3])]
            simp only [List.length_cons]
            omega
          · rw [if_neg (by simp [h1]), if_neg (by simp [h2]), if_neg (by simp [h3]),
              if_neg (by simp [h1, h2, h3])]
            exact ih
    · rw [if_neg (by simp [hd]), if_neg (by simp [hd]), if_neg (by simp [hd]),
        if_neg (by simp [hd])]
      exact ih

/-- C2: when the podium table is produced, each of its rows carries as
1st/2nd/3rd cells exactly the counts of that driver's finishes at
positions 1, 2 and 3 in the source data (counts, hence non-negative
integers by construction), and their sum is exactly the number of source
rows of that driver with finishing position in {1,2,3}. -/
theorem claim_C2 : ∀ (df : DF) (t : List PodiumRow) (pr : PodiumRow),
    podium_count df = some t → pr ∈ t →
    pr.first = (df.filter (fun r => r.driver = pr.driver ∧ r.position = some (1 : ℚ))).length
    ∧ pr.second = (df.filter (fun r => r.driver = pr.driver ∧ r.position = some (2 : ℚ))).length
    ∧ pr.third = (df.filter (fun r => r.driver = pr.driver ∧ r.position = some (3 : ℚ))).length
    ∧ pr.first + pr.second + pr.third
      = (df.filter (fun r => r.driver = pr.driver
          ∧ r.position ∈ [some (1 : ℚ), some 2, some 3])).length := by
  intro df t pr hsome hmem
  unfold podium_count at hsome
  rcases Option.map_eq_some'.mp hsome with ⟨t0, hpiv, ht⟩
  have hmem0 : pr ∈ t0 := by
    rw [← ht] at hmem
    exact (List.perm_insertionSort _ _).mem_iff.mp (List.mem_of_mem_take hmem)
  unfold podiumPivot at hpiv
  by_cases hcond : (((podium df).map Row.position).dedup).length = 3
  · rw [if_pos hcond] at hpiv
    rw [← Option.some.inj hpiv] at hmem0
    rcases List.mem_map.mp hmem0 with ⟨dd, _, hpr⟩
    have hdrv : pr.driver = dd := by rw [← hpr]
    have hfst : pr.first = posCount (podium df) dd 1 := by rw [← hpr]
    have hsnd : pr.second = posCount (podium df) dd 2 := by rw [← hpr]
    have hthd : pr.third = posCount (podium df) dd 3 := by rw [← hpr]
    rw [hdrv, hfst, hsnd, hthd,
      posCount_source df dd 1 (Or.inl rfl),
      posCount_source df dd 2 (Or.inr (Or.inl rfl)),
      posCount_source df dd 3 (Or.inr (Or.inr rfl))]
    exact ⟨rfl, rfl, rfl, podium_tripartite df dd⟩
  · rw [if_neg hcond] at hpiv
    cases hpiv

/-- C2 witness: a concrete dataset, its concrete podium table, and the
cell equations checked on its first row. -/
theorem claim_C2_witness :
    exRowA.first
        = (exFull.filter (fun r => r.driver = exRowA.driver
            ∧ r.position = some (1 : ℚ))).length
    ∧ exRowA.second
        = (exFull.filter (fun r => r.driver = exRowA.driver
            ∧ r.position = some (2 : ℚ))).length
    ∧ exRowA.third
        = (exFull.filter (fun r => r.driver = exRowA.driver
            ∧ r.position = some (3 : ℚ))).length
    ∧ exRowA.first + exRowA.second + exRowA.third
        = (exFull.filter (fun r => r.driver = exRowA.driver
            ∧ r.position ∈ [some (1 : ℚ), some 2, some 3])).length :=
  claim_C2 exFull exTable exRowA (by decide) (by decide)

/-- C5 (amended): provided each of the finishing positions 1, 2 and 3
occurs at least once in the dataset, the podium table is exactly the
pipeline the spec describes: filter to podium positions, count per
(driver, position) into fixed 1st/2nd/3rd columns with absent
combinations as 0, rank by the transient row total descending, keep 10,
drop the total.  (Without that proviso the column relabelling of the
code fails and no table is produced, see the counterexample.) -/
theorem claim_C5 : ∀ df : DF,
    some (1 : ℚ) ∈ (podium df).map Row.position →
    some (2 : ℚ) ∈ (podium df).map Row.position →
    some (3 : ℚ) ∈ (podium df).map Row.position →
    podium_count df = some (podium_count_spec df) := by
  intro df h1 h2 h3
  have hsub : ∀ x ∈ (podium df).map Row.position, x ∈ [some (1 : ℚ), some 2, some 3] := by
    intro x hx
    rcases List.mem_map.mp hx with ⟨r, hr, hxr⟩
    rw [← hxr]
    exact of_decide_eq_true (List.mem_filter.mp hr).2
  have hnd : (((podium df).map Row.position).dedup).Nodup := List.nodup_dedup _
  have hfin : (((podium df).map Row.position).dedup).toFinset
      = ({some (1 : ℚ), some 2, some 3} : Finset (Option ℚ)) := by
    ext x
    simp only [List.mem_toFinset, List.mem_dedup, Finset.mem_insert, Finset.mem_singleton]
    constructor
    · intro hx
      have := hsub x hx
      simpa using this
    · intro hx
      rcases hx with h | h | h <;> subst h
      · exact h1
      · exact h2
      · exact h3
  have hlen : (((podium df).map Row.position).dedup).length = 3 := by
    rw [← List.toFinset_card_of_nodup hnd, hfin]
    decide
  unfold podium_count podiumPivot podium_count_spec
  rw [if_pos hlen]
  rfl

/-- C5 counterexample: on a dataset in which only position 1 occurs, the
code fails at the column relabelling (one pivot column cannot take three
names), modelled as `none`, while the pipeline claimed by the spec still
produces a table; so the claim as stated is false for this input. -/
theorem claim_C5_counterexample :
    podium_count exOnePos = none
    ∧ podium_count_spec exOnePos = [⟨"A", 1, 0, 0⟩] :=
  ⟨by decide, by decide⟩

/-- C5 witness: on a dataset containing all three podium positions the
code's table exists and coincides with the spec's pipeline. -/
theorem claim_C5_witness : podium_count exFull = some (podium_count_spec exFull) :=
  claim_C5 exFull (by decide) (by decide) (by decide)

theorem mem_driver_avg {df : DF} {p : String × ℚ} (hp : p ∈ driver_avg df) :
    p.1 ∈ (recent_years df).map Row.driver
    ∧ p.2 = (((recent_years df).filter (fun r => r.driver = p.1)).map Row.points).sum
        / (((recent_years df).filter (fun r => r.driver = p.1)).length : ℚ) := by
  unfold driver_avg at hp
  have hp2 := (sortDescQ_perm _).mem_iff.mp hp
  rcases List.mem_map.mp hp2 with ⟨d, hd, hpd⟩
  constructor
  · rw [← hpd]
    exact (mem_groupKeys _ _ _).mp hd
  · rw [← hpd]

theorem driver_avg_keys {df : DF} {d : String} :
    d ∈ (driver_avg df).map Prod.fst ↔ ∃ r ∈ df, 2020 ≤ r.year ∧ r.driver = d := by
  unfold driver_avg
  constructor
  · intro h
    rcases List.mem_map.mp h with ⟨p, hp, hpd⟩
    have hp2 := (sortDescQ_perm _).mem_iff.mp hp
    rcases List.mem_map.mp hp2 with ⟨k, hk, hkp⟩
    have hk2 : k ∈ (recent_years df).map Row.driver := (mem_groupKeys _ _ _).mp hk
    rcases List.mem_map.mp hk2 with ⟨r, hr, hrk⟩
    have hrdf := List.mem_filter.mp hr
    refine ⟨r, hrdf.1, of_decide_eq_true hrdf.2, ?_⟩
    rw [hrk, ← hpd, ← hkp]
  · rintro ⟨r, hr, hy, hd⟩
    have hr2 : r ∈ recent_years df := List.mem_filter.mpr ⟨hr, decide_eq_true hy⟩
    have hk : d ∈ groupKeys strLe ((recent_years df).map Row.driver) :=
      (mem_groupKeys _ _ _).mpr (List.mem_map.mpr ⟨r, hr2, hd⟩)
    exact List.mem_map.mpr
      ⟨_, (sortDescQ_perm _).mem_iff.mpr (List.mem_map.mpr ⟨d, hk, rfl⟩), rfl⟩

/-- C4 (amended): the recent window is the fixed filter `year >= 2020`,
which coincides with the most recent five seasons only for datasets
reaching 2024 (the intended 2015-2024 data) and not for arbitrary
datasets, see the counterexample.  Within that window every listed
driver's average is the driver's total points divided by the driver's
actual entry count, that count is positive, the result is sorted
descending, and exactly the drivers with at least one entry in the
window are listed. -/
theorem claim_C4 : ∀ df : DF,
    recent_years df = df.filter (fun r => 2020 ≤ r.year)
    ∧ List.Sorted (fun a b : String × ℚ => b.2 ≤ a.2) (driver_avg df)
    ∧ (∀ p ∈ driver_avg df,
        0 < ((recent_years df).filter (fun r => r.driver = p.1)).length
        ∧ p.2 = (((recent_years df).filter (fun r => r.driver = p.1)).map Row.points).sum
            / (((recent_years df).filter (fun r => r.driver = p.1)).length : ℚ))
    ∧ (∀ d : String,
        d ∈ (driver_avg df).map Prod.fst ↔ ∃ r ∈ df, 2020 ≤ r.year ∧ r.driver = d) := by
  intro df
  refine ⟨rfl, sortDescQ_sorted _, ?_, fun d => driver_avg_keys⟩
  intro p hp
  have h := mem_driver_avg hp
  refine ⟨?_, h.2⟩
  rcases List.mem_map.mp h.1 with ⟨r, hr, hrd⟩
  exact List.length_pos_of_mem (List.mem_filter.mpr ⟨hr, decide_eq_true hrd⟩)

/-- C4 counterexample: with a single 2019 entry, the most recent five
seasons present are just {2019}, so under the claim's reading the driver
has an entry in the window and receives an average, but the code's fixed
`year >= 2020` filter yields an empty result. -/
theorem claim_C4_counterexample :
    (∃ r ∈ recent_years_spec exWindow, r.driver = "A")
    ∧ driver_avg exWindow = []
    ∧ driver_avg_spec exWindow = [("A", 10)] :=
  ⟨by decide, by decide, by decide⟩

/-- C4 witness: DriverA's concrete average on the worked example has a
positive entry count and equals total points over entry count. -/
theorem claim_C4_witness :
    0 < ((recent_years exampleA).filter (fun r => r.driver = exAvgP.1)).length
    ∧ exAvgP.2 = (((recent_years exampleA).filter
          (fun r => r.driver = exAvgP.1)).map Row.points).sum
        / ((((recent_years exampleA).filter (fun r => r.driver = exAvgP.1)).length : ℚ)) :=
  (claim_C4 exampleA).2.2.1 exAvgP (by decide)

/-- C3: every displayed projection value is that driver's recent-form
average multiplied by 20 and rounded to one decimal place; the display
holds at most the 10 largest values, the headline is the first three
truncated to integers; and on the spec's worked example DriverA's
average is 43/2 = 21.5 and the projected points are 430.0. -/
theorem claim_C3 : ∀ df : DF,
    ((∀ p : String × ℚ, p ∈ projection_2025 df →
        ∃ a : ℚ, (p.1, a) ∈ driver_avg df ∧ p.2 = round1 (a * 20))
      ∧ (projection_2025 df).length ≤ 10
      ∧ top3_display df = ((projection_2025 df).take 3).map (fun p => (p.1, ratTrunc p.2)))
    ∧ driver_avg exampleA = [exAvgP]
    ∧ projection_2025 exampleA = [exProjP]
    ∧ top3_display exampleA = [(("DriverA" : String), (430 : ℤ))] := by
  intro df
  refine ⟨⟨?_, List.length_take_le _ _, rfl⟩, by decide, by decide, by decide⟩
  intro p hp
  have hp2 : p ∈ (driver_avg df).map (fun q => (q.1, round1 (q.2 * 20))) :=
    mem_of_mem_nlargest hp
  rcases List.mem_map.mp hp2 with ⟨q, hq, hqp⟩
  refine ⟨q.2, ?_, ?_⟩
  · rw [← hqp]
    exact hq
  · rw [← hqp]

/-- C3 witness: the projection entry of the worked example really equals
round-to-one-decimal of the average times 20. -/
theorem claim_C3_witness :
    ∃ a : ℚ, (exProjP.1, a) ∈ driver_avg exampleA ∧ exProjP.2 = round1 (a * 20) :=
  (claim_C3 exampleA).1.1 exProjP (by decide)

/-- C6: a driver with no race entry in the recent window is absent from
both the recent-form average and the projection: no entry at all (in
particular no zero entry), and no division for that driver happens. -/
theorem claim_C6 : ∀ (df : DF) (d : String),
    (∀ r ∈ df, 2020 ≤ r.year → r.driver ≠ d) →
    d ∉ (driver_avg df).map Prod.fst ∧ d ∉ (projection_2025 df).map Prod.fst := by
  intro df d h
  have hav : d ∉ (driver_avg df).map Prod.fst := by
    intro hmem
    rcases driver_avg_keys.mp hmem with ⟨r, hr, hy, hd⟩
    exact h r hr hy hd
  refine ⟨hav, ?_⟩
  intro hmem
  apply hav
  rcases List.mem_map.mp hmem with ⟨p, hp, hpd⟩
  have hp2 : p ∈ (driver_avg df).map (fun q => (q.1, round1 (q.2 * 20))) :=
    mem_of_mem_nlargest hp
  rcases List.mem_map.mp hp2 with ⟨q, hq, hqp⟩
  refine List.mem_map.mpr ⟨q, hq, ?_⟩
  rw [← hpd, ← hqp]

/-- C6 witness: the driver of the lone 2019 row is absent from both
results. -/
theorem claim_C6_witness :
    ("A" : String) ∉ (driver_avg exWindow).map Prod.fst
    ∧ ("A" : String) ∉ (projection_2025 exWindow).map Prod.fst :=
  claim_C6 exWindow ("A") (by decide)

/-- C7: an unparseable or empty position cell is coerced to a missing
value at load time rather than failing (a table of such rows loads
fine), and a row with a missing position never passes the podium filter,
the only position-based selection from which the position grouping is
built; every row reaching that grouping has a numeric position. -/
theorem claim_C7 : ∀ (raws : List RawRow) (raw : RawRow), raw ∈ raws →
    ((∀ s, raw.position = Cell.text s → (loadRow raw).position = none)
      ∧ (raw.position = Cell.blank → (loadRow raw).position = none))
    ∧ runLoad (LoadInput.table true true raws) = Outcome.loaded (raws.map loadRow)
    ∧ ((loadRow raw).position = none → loadRow raw ∉ podium (raws.map loadRow))
    ∧ (∀ r ∈ podium (raws.map loadRow), r.position ≠ none) := by
  intro raws raw _
  refine ⟨⟨?_, ?_⟩, by simp [runLoad], ?_, ?_⟩
  · intro s hs
    simp [loadRow, to_numeric_coerce, hs]
  · intro hs
    simp [loadRow, to_numeric_coerce, hs]
  · intro hnone hmem
    have h2 := of_decide_eq_true (List.mem_filter.mp hmem).2
    rw [hnone] at h2
    simp at h2
  · intro r hr hnone
    have h2 := of_decide_eq_true (List.mem_filter.mp hr).2
    rw [hnone] at h2
    simp at h2

/-- C7 witness: the text cell of the concrete raw row loads as a missing
position. -/
theorem claim_C7_witness : (loadRow exRaw).position = none :=
  (claim_C7 [exRaw] exRaw (by decide)).1.1 ("DNF") rfl

/-- C8: a missing input file halts processing before any loading with a
user-facing message; any other load error, including the absence of an
expected column such as `position`, is caught generically and also
halts, so the loaded dataframe (and with it any aggregation or chart)
exists only when the file is present and parses with the expected
columns. -/
theorem claim_C8 :
    runLoad LoadInput.missingFile = Outcome.haltMissingFile
    ∧ runLoad LoadInput.unreadable = Outcome.haltLoadError
    ∧ (∀ hy rows, runLoad (LoadInput.table false hy rows) = Outcome.haltLoadError)
    ∧ (∀ hp rows, runLoad (LoadInput.table hp false rows) = Outcome.haltLoadError)
    ∧ (∀ inp df, runLoad inp = Outcome.loaded df →
        ∃ rows, inp = LoadInput.table true true rows ∧ df = rows.map loadRow) := by
  refine ⟨rfl, rfl, ?_, ?_, ?_⟩
  · intro hy rows; simp [runLoad]
  · intro hp rows; cases hp <;> simp [runLoad]
  · intro inp df h
    cases inp with
    | missingFile => exact absurd h (by simp [runLoad])
    | unreadable => exact absurd h (by simp [runLoad])
    | table hp hy rows =>
      cases hp <;> cases hy <;> simp [runLoad] at h
      exact ⟨rows, rfl, h.symm⟩

/-- C8 witness: the fully successful case actually loads, and the
theorem recovers the input shape from it. -/
theorem claim_C8_witness :
    ∃ rows, LoadInput.table true true [] = LoadInput.table true true rows
      ∧ ([] : DF) = rows.map loadRow :=
  claim_C8.2.2.2.2 (LoadInput.table true true []) [] rfl

/-- C9: the statement sequence computing the derived views returns the
dataframe unchanged, and every view is a function of that original
dataframe: derived tables are fresh values, no aggregation mutates the
source rows or columns. -/
theorem claim_C9 : ∀ df : DF,
    (runPrepare df).2 = df
    ∧ (runPrepare df).1.top_drivers = top_drivers df
    ∧ (runPrepare df).1.driver_trend = driver_trend df
    ∧ (runPrepare df).1.cons_trend = cons_trend df
    ∧ (runPrepare df).1.podium_count = podium_count df
    ∧ (runPrepare df).1.driver_avg = driver_avg df
    ∧ (runPrepare df).1.projection_2025 = projection_2025 df
    ∧ (runPrepare df).1.top3 = top3 df :=
  fun _ => ⟨rfl, rfl, rfl, rfl, rfl, rfl, rfl, rfl⟩

/-- C10: the headline top-3 projection is exactly the first three
entries of the displayed top-10 projection series, and that series is
sorted in descending order of projected points. -/
theorem claim_C10 : ∀ df : DF,
    top3 df = (projection_2025 df).take 3
    ∧ List.Sorted (fun a b : String × ℚ => b.2 ≤ a.2) (projection_2025 df) := by
  intro df
  refine ⟨rfl, ?_⟩
  exact (sortDescQ_sorted _).sublist (List.take_sublist _ _)

end

end F1Viz
